import Mathlib

/-
Verification of the bounded-concurrency frame dispatch pipeline of the
crowd-count server (src/server.js).

The shallow embedding below translates the decision logic of the source
into Lean definitions:

* the Socket.IO 'frame' handler (server.js lines 351-362) and the
  dispatcher `processFrameAndEmit` (lines 151-199) become explicit
  state-passing functions over `DispatchState`;
* the asynchronous completion of a dispatched frame (everything after the
  `await callRoboflowWithBase64` up to and including the `finally` block)
  becomes the function `frameCompletion`; a run of the system is a fold of
  submission/completion events over the state, mirroring the Node.js
  event loop in which every synchronous section runs atomically and
  suspension happens only at the inference call;
* the inline alert-threshold check (lines 166-170) becomes
  `checkAlertThreshold`;
* the renderers `drawDotsOnImage` (lines 201-249) and `generateHeatmap`
  (lines 251-290) become pure functions from a detection list to the list
  of drawing commands they issue; and
* the 'updateThreshold' handler (lines 431-437) becomes
  `onUpdateThreshold` over a small model of JavaScript values
  (numbers and strings) with JavaScript truthiness and `parseInt`.

Frame identifiers are a modeling artifact used to name frames in traces;
the JavaScript objects themselves are anonymous closures.
-/

namespace CrowdServer

/-- Events emitted through the Socket.IO transport by the frame path.
`ackTo` is the targeted `socket.emit('ack', {received:true})`;
`errTo` is a targeted `socket.emit('prediction', {success:false, error: msg})`;
`predictionBroadcast ok` is the `io.emit('prediction', …)` issued at the end
of processing, with `ok` the `success` field of the payload. -/
inductive EmitEv where
  | ackTo (conn : ℕ)
  | errTo (conn : ℕ) (msg : String)
  | predictionBroadcast (ok : Bool)
deriving DecidableEq, Repr

/-- Payload of a 'frame' socket event: `data.imageBase64`, which may be
absent (`none`) or present; the empty string is falsy in JavaScript. -/
structure FrameData where
  imageBase64 : Option String
deriving DecidableEq, Repr

/-- State of the dispatcher: the mutable globals `inFlight` and `queue` of
server.js, plus ghost logs that record what happened (ghost fields never
influence control flow).

`maxConcurrent` is the constant `MAX_CONCURRENT`;
`inFlight` and `queue` are the globals of the same names (queue holds
frame ids, FIFO: `queue.push` at the back, `queue.shift()` at the front);
`active` lists the frames currently holding a concurrency slot;
`seen` lists every frame id handed to `processFrameAndEmit` by the
'frame' handler; `enqueued`/`dequeued` log backlog pushes and shifts in
order; `acquires`/`releases` log each `inFlight++` and `inFlight--` with
the frame it was performed for; `emits` logs transport emissions. -/
structure DispatchState where
  maxConcurrent : ℕ
  inFlight : ℕ
  queue : List ℕ
  active : List ℕ
  seen : List ℕ
  enqueued : List ℕ
  dequeued : List ℕ
  acquires : List ℕ
  releases : List ℕ
  emits : List EmitEv
deriving DecidableEq, Repr

/-- Initial state: `inFlight = 0`, empty queue, no history. -/
def initState (maxC : ℕ) : DispatchState :=
  { maxConcurrent := maxC
    inFlight := 0
    queue := []
    active := []
    seen := []
    enqueued := []
    dequeued := []
    acquires := []
    releases := []
    emits := [] }

/-- Synchronous prefix of `processFrameAndEmit` (server.js lines 152-156):
if `inFlight >= MAX_CONCURRENT` the frame is pushed onto the backlog and
the function returns; otherwise `inFlight` is incremented (before the
asynchronous inference call is started, which is why the increment and
the admission check form one atomic step here) and the frame becomes
in-flight. -/
def processFrameAndEmit (fid : ℕ) (s : DispatchState) : DispatchState :=
  if s.maxConcurrent ≤ s.inFlight then
    { s with queue := s.queue ++ [fid], enqueued := s.enqueued ++ [fid] }
  else
    { s with inFlight := s.inFlight + 1
             active := s.active ++ [fid]
             acquires := s.acquires ++ [fid] }

/-- Broadcast issued by the try body on success (`io.emit('prediction',
payload)`, line 185) or by the catch block on failure (line 188): either
way exactly one `prediction` broadcast, with `success = ok`. -/
def emitOutcome (ok : Bool) (s : DispatchState) : DispatchState :=
  { s with emits := s.emits ++ [EmitEv.predictionBroadcast ok] }

/-- The unconditional `inFlight--` of the `finally` block (line 193),
logged against the frame it runs for. -/
def finallyRelease (fid : ℕ) (s : DispatchState) : DispatchState :=
  { s with inFlight := s.inFlight - 1
           active := s.active.erase fid
           releases := s.releases ++ [fid] }

/-- Rest of the `finally` block (lines 194-197): if the backlog is
non-empty and a slot is free, `queue.shift()` the oldest entry and
re-submit it through `processFrameAndEmit`. -/
def drainBacklog (s : DispatchState) : DispatchState :=
  if 0 < s.queue.length ∧ s.inFlight < s.maxConcurrent then
    processFrameAndEmit (s.queue.headD 0)
      { s with queue := s.queue.tail
               dequeued := s.dequeued ++ [s.queue.headD 0] }
  else s

/-- Continuation of `processFrameAndEmit` once the inference call for
frame `fid` settles (server.js lines 157-198). `ok` records whether the
try-body succeeded (broadcast of a success payload) or threw (catch block
broadcasts a failure payload). Either way the `finally` block runs:
`inFlight--`, and if the backlog is non-empty and a slot is free, the
oldest backlog entry is shifted and re-submitted via
`processFrameAndEmit`. -/
def frameCompletion (fid : ℕ) (ok : Bool) (s : DispatchState) : DispatchState :=
  drainBacklog (finallyRelease fid (emitOutcome ok s))

/-- The Socket.IO 'frame' handler (server.js lines 351-362): a missing
payload or falsy `imageBase64` is answered with a targeted
`prediction{success:false, error:'No frame provided'}`; if
`queue.length > 60` the submission is answered with a targeted
`prediction{success:false, error:'Server busy, frame dropped'}`;
otherwise an ack is sent and the frame enters `processFrameAndEmit`. -/
def onFrame (conn fid : ℕ) (data : Option FrameData) (s : DispatchState) :
    DispatchState :=
  match data with
  | none => { s with emits := s.emits ++ [EmitEv.errTo conn "No frame provided"] }
  | some d =>
    match d.imageBase64 with
    | none => { s with emits := s.emits ++ [EmitEv.errTo conn "No frame provided"] }
    | some img =>
      if img = "" then
        { s with emits := s.emits ++ [EmitEv.errTo conn "No frame provided"] }
      else if 60 < s.queue.length then
        { s with emits := s.emits ++ [EmitEv.errTo conn "Server busy, frame dropped"] }
      else
        processFrameAndEmit fid
          { s with emits := s.emits ++ [EmitEv.ackTo conn], seen := s.seen ++ [fid] }

/-- Scheduler events: a 'frame' socket event from connection `conn`
carrying `data` (given the fresh id `fid`), or the settling of the
inference call of in-flight frame `fid` with outcome `ok`. -/
inductive DEv where
  | frame (conn fid : ℕ) (data : Option FrameData)
  | complete (fid : ℕ) (ok : Bool)
deriving DecidableEq, Repr

/-- One event-loop step. -/
def stepD (e : DEv) (s : DispatchState) : DispatchState :=
  match e with
  | DEv.frame conn fid data => onFrame conn fid data s
  | DEv.complete fid ok => frameCompletion fid ok s

/-- Run a trace of events from a state. -/
def runD (s : DispatchState) (tr : List DEv) : DispatchState :=
  tr.foldl (fun s e => stepD e s) s

/-- An event is enabled in a state when it can actually occur at runtime:
frame ids supplied by the handler are fresh, and a completion can only
settle a frame whose inference call is in flight. -/
def validEv (s : DispatchState) : DEv → Bool
  | DEv.frame _ fid _ => decide (fid ∉ s.seen)
  | DEv.complete fid _ => decide (fid ∈ s.active)

/-- A trace is valid from a state when every event is enabled when it is
processed. -/
def validTrace (s : DispatchState) : List DEv → Bool
  | [] => true
  | e :: tr => validEv s e && validTrace (stepD e s) tr

/-- Number of completion events of frame `fid` in a trace. -/
def completesOf (fid : ℕ) (tr : List DEv) : ℕ :=
  tr.countP fun e =>
    match e with
    | DEv.complete f _ => decide (f = fid)
    | _ => false

theorem runD_nil (s : DispatchState) : runD s [] = s := rfl

theorem runD_cons (s : DispatchState) (e : DEv) (tr : List DEv) :
    runD s (e :: tr) = runD (stepD e s) tr := rfl

theorem runD_preserve (P : DispatchState → Prop)
    (h : ∀ e s, P s → P (stepD e s)) :
    ∀ (tr : List DEv) (s : DispatchState), P s → P (runD s tr) := by
  intro tr
  induction tr with
  | nil => intro s hs; exact hs
  | cons e tr ih => intro s hs; exact ih (stepD e s) (h e s hs)

theorem validTrace_cons {s : DispatchState} {e : DEv} {tr : List DEv}
    (h : validTrace s (e :: tr) = true) :
    validEv s e = true ∧ validTrace (stepD e s) tr = true := by
  simpa [validTrace, Bool.and_eq_true] using h

theorem runD_preserve_valid (P : DispatchState → Prop)
    (h : ∀ e s, validEv s e = true → P s → P (stepD e s)) :
    ∀ (tr : List DEv) (s : DispatchState),
      validTrace s tr = true → P s → P (runD s tr) := by
  intro tr
  induction tr with
  | nil => intro s _ hs; exact hs
  | cons e tr ih =>
    intro s hv hs
    obtain ⟨hv1, hv2⟩ := validTrace_cons hv
    exact ih (stepD e s) hv2 (h e s hv1 hs)

theorem pfe_of_full (fid : ℕ) (s : DispatchState)
    (h : s.maxConcurrent ≤ s.inFlight) :
    processFrameAndEmit fid s =
      { s with queue := s.queue ++ [fid], enqueued := s.enqueued ++ [fid] } := by
  unfold processFrameAndEmit
  rw [if_pos h]

theorem pfe_of_free (fid : ℕ) (s : DispatchState)
    (h : s.inFlight < s.maxConcurrent) :
    processFrameAndEmit fid s =
      { s with inFlight := s.inFlight + 1
               active := s.active ++ [fid]
               acquires := s.acquires ++ [fid] } := by
  unfold processFrameAndEmit
  rw [if_neg (by omega)]

theorem pfe_releases (fid : ℕ) (s : DispatchState) :
    (processFrameAndEmit fid s).releases = s.releases := by
  unfold processFrameAndEmit
  split <;> rfl

theorem pfe_maxConcurrent (fid : ℕ) (s : DispatchState) :
    (processFrameAndEmit fid s).maxConcurrent = s.maxConcurrent := by
  unfold processFrameAndEmit
  split <;> rfl

theorem pfe_seen (fid : ℕ) (s : DispatchState) :
    (processFrameAndEmit fid s).seen = s.seen := by
  unfold processFrameAndEmit
  split <;> rfl

theorem pfe_queue_length (fid : ℕ) (s : DispatchState) :
    (processFrameAndEmit fid s).queue.length ≤ s.queue.length + 1 := by
  unfold processFrameAndEmit
  split <;> simp

theorem pfe_inFlight_le (fid : ℕ) (s : DispatchState)
    (h : s.inFlight ≤ s.maxConcurrent) :
    (processFrameAndEmit fid s).inFlight ≤ s.maxConcurrent := by
  unfold processFrameAndEmit
  split
  · exact h
  · simp only
    omega

theorem onFrame_of_noPayload (conn fid : ℕ) (data : Option FrameData)
    (s : DispatchState)
    (h : data = none ∨ data = some ⟨none⟩ ∨ data = some ⟨some ""⟩) :
    onFrame conn fid data s =
      { s with emits := s.emits ++ [EmitEv.errTo conn "No frame provided"] } := by
  rcases h with rfl | rfl | rfl
  · rfl
  · rfl
  · rfl

theorem onFrame_of_busy (conn fid : ℕ) (img : String) (s : DispatchState)
    (h1 : img ≠ "") (h2 : 60 < s.queue.length) :
    onFrame conn fid (some ⟨some img⟩) s =
      { s with emits := s.emits ++ [EmitEv.errTo conn "Server busy, frame dropped"] } := by
  simp only [onFrame]
  rw [if_neg h1, if_pos h2]

theorem onFrame_of_accepted (conn fid : ℕ) (img : String) (s : DispatchState)
    (h1 : img ≠ "") (h2 : ¬ 60 < s.queue.length) :
    onFrame conn fid (some ⟨some img⟩) s =
      processFrameAndEmit fid
        { s with emits := s.emits ++ [EmitEv.ackTo conn], seen := s.seen ++ [fid] } := by
  simp only [onFrame]
  rw [if_neg h1, if_neg h2]

theorem onFrame_cases (conn fid : ℕ) (data : Option FrameData)
    (s : DispatchState) :
    (data = none ∨ data = some ⟨none⟩ ∨ data = some ⟨some ""⟩) ∨
    (∃ img, img ≠ "" ∧ data = some ⟨some img⟩) := by
  rcases data with _ | ⟨_ | img⟩
  · exact Or.inl (Or.inl rfl)
  · exact Or.inl (Or.inr (Or.inl rfl))
  · by_cases h : img = ""
    · subst h; exact Or.inl (Or.inr (Or.inr rfl))
    · exact Or.inr ⟨img, h, rfl⟩

theorem onFrame_releases (conn fid : ℕ) (data : Option FrameData)
    (s : DispatchState) : (onFrame conn fid data s).releases = s.releases := by
  rcases onFrame_cases conn fid data s with h | ⟨img, h1, rfl⟩
  · rw [onFrame_of_noPayload conn fid data s h]
  · by_cases h2 : 60 < s.queue.length
    · rw [onFrame_of_busy conn fid img s h1 h2]
    · rw [onFrame_of_accepted conn fid img s h1 h2, pfe_releases]

theorem frameCompletion_releases (fid : ℕ) (ok : Bool) (s : DispatchState) :
    (frameCompletion fid ok s).releases = s.releases ++ [fid] := by
  unfold frameCompletion drainBacklog finallyRelease emitOutcome
  split <;> simp [pfe_releases]

theorem stepD_maxConcurrent (e : DEv) (s : DispatchState) :
    (stepD e s).maxConcurrent = s.maxConcurrent := by
  cases e with
  | frame conn fid data =>
    show (onFrame conn fid data s).maxConcurrent = s.maxConcurrent
    rcases onFrame_cases conn fid data s with h | ⟨img, h1, rfl⟩
    · rw [onFrame_of_noPayload conn fid data s h]
    · by_cases h2 : 60 < s.queue.length
      · rw [onFrame_of_busy conn fid img s h1 h2]
      · rw [onFrame_of_accepted conn fid img s h1 h2, pfe_maxConcurrent]
  | complete fid ok =>
    show (frameCompletion fid ok s).maxConcurrent = s.maxConcurrent
    unfold frameCompletion drainBacklog finallyRelease emitOutcome
    split <;> simp [pfe_maxConcurrent]

theorem stepD_inFlight_le (e : DEv) (s : DispatchState)
    (h : s.inFlight ≤ s.maxConcurrent) :
    (stepD e s).inFlight ≤ (stepD e s).maxConcurrent := by
  rw [stepD_maxConcurrent]
  cases e with
  | frame conn fid data =>
    show (onFrame conn fid data s).inFlight ≤ s.maxConcurrent
    rcases onFrame_cases conn fid data s with hc | ⟨img, h1, rfl⟩
    · rw [onFrame_of_noPayload conn fid data s hc]; exact h
    · by_cases h2 : 60 < s.queue.length
      · rw [onFrame_of_busy conn fid img s h1 h2]; exact h
      · rw [onFrame_of_accepted conn fid img s h1 h2]
        exact pfe_inFlight_le fid _ h
  | complete fid ok =>
    show (frameCompletion fid ok s).inFlight ≤ s.maxConcurrent
    unfold frameCompletion drainBacklog finallyRelease emitOutcome
    split
    · exact pfe_inFlight_le _ _ (by simp only; omega)
    · simp only
      omega

theorem headD_cons_tail {l : List ℕ} (h : 0 < l.length) (d : ℕ) :
    l.headD d :: l.tail = l := by
  cases l with
  | nil => simp at h
  | cons a t => rfl

theorem stepD_queue_length_le (e : DEv) (s : DispatchState)
    (h : s.queue.length ≤ 61) : (stepD e s).queue.length ≤ 61 := by
  cases e with
  | frame conn fid data =>
    show (onFrame conn fid data s).queue.length ≤ 61
    rcases onFrame_cases conn fid data s with hc | ⟨img, h1, rfl⟩
    · rw [onFrame_of_noPayload conn fid data s hc]; exact h
    · by_cases h2 : 60 < s.queue.length
      · rw [onFrame_of_busy conn fid img s h1 h2]; exact h
      · rw [onFrame_of_accepted conn fid img s h1 h2]
        have := pfe_queue_length fid
          { s with emits := s.emits ++ [EmitEv.ackTo conn], seen := s.seen ++ [fid] }
        simp only at this
        omega
  | complete fid ok =>
    show (frameCompletion fid ok s).queue.length ≤ 61
    unfold frameCompletion drainBacklog finallyRelease emitOutcome
    split
    case isTrue hg =>
      refine le_trans (pfe_queue_length _ _) ?_
      simp only [List.length_tail]
      omega
    case isFalse hg => simpa using h

theorem pfe_fifo (fid : ℕ) (s : DispatchState)
    (h : s.enqueued = s.dequeued ++ s.queue) :
    (processFrameAndEmit fid s).enqueued =
      (processFrameAndEmit fid s).dequeued ++ (processFrameAndEmit fid s).queue := by
  unfold processFrameAndEmit
  split
  · simp only
    rw [h, List.append_assoc]
  · exact h

theorem stepD_fifo (e : DEv) (s : DispatchState)
    (h : s.enqueued = s.dequeued ++ s.queue) :
    (stepD e s).enqueued = (stepD e s).dequeued ++ (stepD e s).queue := by
  cases e with
  | frame conn fid data =>
    show (onFrame conn fid data s).enqueued
        = (onFrame conn fid data s).dequeued ++ (onFrame conn fid data s).queue
    rcases onFrame_cases conn fid data s with hc | ⟨img, h1, rfl⟩
    · rw [onFrame_of_noPayload conn fid data s hc]; exact h
    · by_cases h2 : 60 < s.queue.length
      · rw [onFrame_of_busy conn fid img s h1 h2]; exact h
      · rw [onFrame_of_accepted conn fid img s h1 h2]
        exact pfe_fifo fid _ h
  | complete fid ok =>
    show (frameCompletion fid ok s).enqueued
        = (frameCompletion fid ok s).dequeued ++ (frameCompletion fid ok s).queue
    unfold frameCompletion drainBacklog finallyRelease emitOutcome
    split
    case isTrue hg =>
      refine pfe_fifo _ _ ?_
      simp only
      rw [h, ← headD_cons_tail hg.1 0]
      simp
    case isFalse hg => exact h

/-- Slot-accounting invariant: frame ids are never repeated (`seen` is
nodup) and every id occurs in `active`, in the backlog and in the release
log together at most as often as it was submitted. -/
def slotInv (s : DispatchState) : Prop :=
  s.seen.Nodup ∧
  ∀ f, s.active.count f + s.queue.count f + s.releases.count f ≤ s.seen.count f

theorem slotInv_init (maxC : ℕ) : slotInv (initState maxC) := by
  constructor
  · simp [initState]
  · intro f; simp [initState]

theorem pfe_slotInv (fid : ℕ) (s : DispatchState) (h : slotInv s)
    (hfid : s.active.count fid + s.queue.count fid + s.releases.count fid + 1
              ≤ s.seen.count fid) :
    slotInv (processFrameAndEmit fid s) := by
  obtain ⟨hnd, hcnt⟩ := h
  unfold processFrameAndEmit
  split
  · refine ⟨hnd, ?_⟩
    intro f
    simp only [List.count_append, List.count_singleton]
    by_cases hf : fid = f
    · subst hf; simp; omega
    · have := hcnt f
      simp [hf]
      omega
  · refine ⟨hnd, ?_⟩
    intro f
    simp only [List.count_append, List.count_singleton]
    by_cases hf : fid = f
    · subst hf; simp; omega
    · have := hcnt f
      simp [hf]
      omega

theorem drainBacklog_slotInv (s : DispatchState) (h : slotInv s) :
    slotInv (drainBacklog s) := by
  obtain ⟨hnd, hcnt⟩ := h
  unfold drainBacklog
  split
  case isTrue hg =>
    refine pfe_slotInv _ _ ⟨hnd, ?_⟩ ?_
    · intro f
      have := hcnt f
      simp only
      rw [← headD_cons_tail hg.1 0] at this
      simp only [List.count_cons] at this
      by_cases hf : s.queue.headD 0 = f <;> simp [hf] at this ⊢ <;> omega
    · simp only
      have := hcnt (s.queue.headD 0)
      rw [← headD_cons_tail hg.1 0] at this
      simp only [List.count_cons] at this
      simp at this ⊢
      omega
  case isFalse hg => exact ⟨hnd, hcnt⟩

theorem finallyRelease_slotInv (fid : ℕ) (s : DispatchState)
    (hmem : fid ∈ s.active) (h : slotInv s) :
    slotInv (finallyRelease fid s) := by
  obtain ⟨hnd, hcnt⟩ := h
  refine ⟨hnd, ?_⟩
  intro f
  have hle := hcnt f
  unfold finallyRelease
  simp only [List.count_append, List.count_singleton]
  by_cases hf : fid = f
  · subst hf
    rw [List.count_erase_self]
    have hpos : 0 < s.active.count fid := List.count_pos_iff.mpr hmem
    simp
    omega
  · rw [List.count_erase_of_ne (fun hc => hf hc.symm)]
    simp [hf]
    omega

theorem stepD_slotInv (e : DEv) (s : DispatchState)
    (hv : validEv s e = true) (h : slotInv s) : slotInv (stepD e s) := by
  cases e with
  | frame conn fid data =>
    have hfresh : fid ∉ s.seen := by simpa [validEv] using hv
    show slotInv (onFrame conn fid data s)
    rcases onFrame_cases conn fid data s with hc | ⟨img, h1, rfl⟩
    · rw [onFrame_of_noPayload conn fid data s hc]; exact h
    · by_cases h2 : 60 < s.queue.length
      · rw [onFrame_of_busy conn fid img s h1 h2]; exact h
      · rw [onFrame_of_accepted conn fid img s h1 h2]
        obtain ⟨hnd, hcnt⟩ := h
        have hseen0 : s.seen.count fid = 0 := by
          simpa using List.count_eq_zero.mpr hfresh
        refine pfe_slotInv fid _ ⟨?_, ?_⟩ ?_
        · simp only
          rw [List.nodup_append]
          refine ⟨hnd, List.nodup_singleton fid, ?_⟩
          intro a ha hab
          simp only [List.mem_singleton] at hab
          subst hab
          exact hfresh ha
        · intro f
          have := hcnt f
          simp only [List.count_append]
          omega
        · simp only [List.count_append, List.count_singleton]
          have := hcnt fid
          simp
          omega
  | complete fid ok =>
    have hmem : fid ∈ s.active := by simpa [validEv] using hv
    show slotInv (frameCompletion fid ok s)
    unfold frameCompletion
    exact drainBacklog_slotInv _ (finallyRelease_slotInv fid _ hmem h)

theorem releases_count_runD :
    ∀ (tr : List DEv) (s : DispatchState) (f : ℕ),
      (runD s tr).releases.count f = s.releases.count f + completesOf f tr := by
  intro tr
  induction tr with
  | nil => intro s f; simp [runD, completesOf]
  | cons e tr ih =>
    intro s f
    rw [runD_cons, ih]
    cases e with
    | frame conn fid data =>
      rw [show stepD (DEv.frame conn fid data) s = onFrame conn fid data s from rfl,
        onFrame_releases]
      simp [completesOf, List.countP_cons]
    | complete fid ok =>
      rw [show stepD (DEv.complete fid ok) s = frameCompletion fid ok s from rfl,
        frameCompletion_releases]
      simp only [completesOf, List.countP_cons, List.count_append, List.count_singleton]
      by_cases hf : fid = f <;> simp [hf] <;> omega

/-- Example trace used by witnesses: three frames arrive at
`MAX_CONCURRENT = 2` (frames 0 and 1 dispatch immediately, frame 2 is
backlogged), frame 0 then fails its inference call, which dispatches
frame 2 from the backlog, and frame 2 later succeeds. -/
def frameOkData : Option FrameData := some ⟨some "x"⟩

def traceEx : List DEv :=
  [DEv.frame 0 0 frameOkData, DEv.frame 0 1 frameOkData, DEv.frame 0 2 frameOkData,
   DEv.complete 0 false, DEv.complete 2 true]

/-- C1: for every valid run of the dispatcher, the number of slot
releases logged for a frame equals the number of its processed
completions and never exceeds one — an admitted frame whose inference
call settles (with success or failure: the trace quantifies over both
outcomes, and the last conjunct shows the `finally` block appends exactly
one release regardless of the outcome flag) releases its slot exactly
once; no leak, no double release. -/
theorem c1_slot_released_exactly_once (maxC : ℕ) (tr : List DEv) (fid : ℕ)
    (s : DispatchState) (ok : Bool)
    (hv : validTrace (initState maxC) tr = true) :
    (runD (initState maxC) tr).releases.count fid = completesOf fid tr
    ∧ (runD (initState maxC) tr).releases.count fid ≤ 1
    ∧ (frameCompletion fid ok s).releases = s.releases ++ [fid] := by
  refine ⟨?_, ?_, frameCompletion_releases fid ok s⟩
  · have h := releases_count_runD tr (initState maxC) fid
    simpa [initState] using h
  · have hInv := runD_preserve_valid slotInv stepD_slotInv tr (initState maxC) hv
      (slotInv_init maxC)
    obtain ⟨hnd, hcnt⟩ := hInv
    have h1 := hcnt fid
    have h2 := List.nodup_iff_count_le_one.mp hnd fid
    omega

theorem c1_witness :
    (runD (initState 2) traceEx).releases.count 2 = completesOf 2 traceEx
    ∧ (runD (initState 2) traceEx).releases.count 2 ≤ 1
    ∧ (frameCompletion 2 false (initState 2)).releases
        = (initState 2).releases ++ [2] :=
  c1_slot_released_exactly_once 2 traceEx 2 (initState 2) false (by decide)

/-- C2: over every run of the dispatcher from the initial state,
`inFlight` never exceeds `MAX_CONCURRENT`; and a submission that arrives
while `inFlight ≥ MAX_CONCURRENT` is backlogged instead of dispatched —
`processFrameAndEmit` leaves `inFlight`, `active` and `acquires`
untouched and only appends the frame to the queue. The increment-
before-call ordering of the source (lines 156-159) is captured by the
admission check and the increment forming one atomic step of the model,
as they execute synchronously before the first `await`. -/
theorem c2_inflight_never_exceeds_max (maxC : ℕ) (tr : List DEv) (fid : ℕ)
    (s : DispatchState) (h : s.maxConcurrent ≤ s.inFlight) :
    (runD (initState maxC) tr).inFlight ≤ maxC
    ∧ processFrameAndEmit fid s =
        { s with queue := s.queue ++ [fid], enqueued := s.enqueued ++ [fid] } := by
  constructor
  · have h2 := runD_preserve
      (fun u => u.inFlight ≤ u.maxConcurrent ∧ u.maxConcurrent = maxC)
      (fun e u hu => ⟨stepD_inFlight_le e u hu.1, by rw [stepD_maxConcurrent]; exact hu.2⟩)
      tr (initState maxC) ⟨by simp [initState], rfl⟩
    omega
  · exact pfe_of_full fid s h

/-- State with both concurrency slots occupied, used by witnesses. -/
def busyState : DispatchState :=
  { initState 2 with inFlight := 2, active := [0, 1], seen := [0, 1], acquires := [0, 1] }

theorem c2_witness :
    (runD (initState 2) traceEx).inFlight ≤ 2
    ∧ processFrameAndEmit 5 busyState =
        { busyState with queue := busyState.queue ++ [5],
                         enqueued := busyState.enqueued ++ [5] } :=
  c2_inflight_never_exceeds_max 2 traceEx 5 busyState (by decide)

/-- Flood of 63 well-formed frame submissions with no completions, at
`MAX_CONCURRENT = 2`: two dispatch immediately and the rest pile up in
the backlog. -/
def floodTrace : List DEv := (List.range 63).map fun i => DEv.frame 0 i frameOkData

def floodTraceRejected : List DEv := floodTrace ++ [DEv.frame 0 63 frameOkData]

set_option maxRecDepth 20000

/-- C3 counterexample: after 62 submissions the backlog holds exactly 60
frames, yet the 63rd submission is NOT rejected — it is acknowledged and
enqueued, growing the backlog to 61 (the code rejects only when
`queue.length > 60`). Only the 64th submission, arriving with 61
backlogged, is rejected, and the rejection message is
'Server busy, frame dropped' (capital S), not the claimed
'server busy, frame dropped'. -/
theorem c3_counterexample :
    validTrace (initState 2) floodTraceRejected = true
    ∧ (runD (initState 2) floodTrace.dropLast).queue.length = 60
    ∧ (runD (initState 2) floodTrace).queue.length = 61
    ∧ (runD (initState 2) floodTrace).emits.getLast? = some (EmitEv.ackTo 0)
    ∧ (runD (initState 2) floodTraceRejected).queue.length = 61
    ∧ (runD (initState 2) floodTraceRejected).emits.getLast?
        = some (EmitEv.errTo 0 "Server busy, frame dropped")
    ∧ "Server busy, frame dropped" ≠ "server busy, frame dropped" := by
  decide

/-- C3 as amended: the backlog length never exceeds 61; a 'frame'
submission arriving while more than 60 frames are backlogged (i.e. 61,
the maximum) is rejected — the submitter receives a targeted prediction
event with success:false and error 'Server busy, frame dropped', no ack
is sent, and the dispatcher state (backlog included) is otherwise
unchanged. -/
theorem c3_backlog_bounded_61 (maxC : ℕ) (tr : List DEv) (s : DispatchState)
    (conn fid : ℕ) (img : String) (h1 : img ≠ "") (h2 : 60 < s.queue.length) :
    (runD (initState maxC) tr).queue.length ≤ 61
    ∧ onFrame conn fid (some ⟨some img⟩) s =
        { s with emits := s.emits ++ [EmitEv.errTo conn "Server busy, frame dropped"] } := by
  constructor
  · exact runD_preserve (fun u => u.queue.length ≤ 61) stepD_queue_length_le tr
      (initState maxC) (by simp [initState])
  · exact onFrame_of_busy conn fid img s h1 h2

/-- State with both slots taken and a full backlog of 61 frames. -/
def backlog61State : DispatchState :=
  { initState 2 with inFlight := 2, queue := List.range 61, enqueued := List.range 61 }

theorem c3_witness :
    (runD (initState 2) traceEx).queue.length ≤ 61
    ∧ onFrame 0 99 (some ⟨some "x"⟩) backlog61State =
        { backlog61State with
            emits := backlog61State.emits ++ [EmitEv.errTo 0 "Server busy, frame dropped"] } :=
  c3_backlog_bounded_61 2 traceEx backlog61State 0 99 "x" (by decide) (by decide)

/-- C4: over every run of the dispatcher the enqueue log equals the
dequeue log followed by the current backlog — frames leave the backlog
in exactly their arrival order (the dispatch order of backlogged frames
is a prefix of the enqueue order, so no entry overtakes an earlier one);
and whenever a slot release finds a non-empty backlog and a free slot,
the OLDEST entry (the queue head) is dequeued and immediately dispatched:
it is appended to the acquire log and not re-queued. -/
theorem c4_backlog_fifo (maxC : ℕ) (tr : List DEv) (s : DispatchState)
    (fid : ℕ) (ok : Bool) (next : ℕ) (rest : List ℕ)
    (hq : s.queue = next :: rest) (hf : s.inFlight - 1 < s.maxConcurrent) :
    (runD (initState maxC) tr).enqueued
        = (runD (initState maxC) tr).dequeued ++ (runD (initState maxC) tr).queue
    ∧ (frameCompletion fid ok s).dequeued = s.dequeued ++ [next]
    ∧ (frameCompletion fid ok s).acquires = s.acquires ++ [next]
    ∧ (frameCompletion fid ok s).queue = rest := by
  have hstep : frameCompletion fid ok s =
      { maxConcurrent := s.maxConcurrent
        inFlight := s.inFlight - 1 + 1
        queue := rest
        active := s.active.erase fid ++ [next]
        seen := s.seen
        enqueued := s.enqueued
        dequeued := s.dequeued ++ [next]
        acquires := s.acquires ++ [next]
        releases := s.releases ++ [fid]
        emits := s.emits ++ [EmitEv.predictionBroadcast ok] } := by
    unfold frameCompletion drainBacklog finallyRelease emitOutcome
    simp only [hq, List.headD_cons, List.tail_cons]
    rw [if_pos ⟨by simp, by simpa using hf⟩]
    rw [pfe_of_free next _ (by simpa using hf)]
  refine ⟨?_, ?_, ?_, ?_⟩
  · exact runD_preserve (fun u => u.enqueued = u.dequeued ++ u.queue) stepD_fifo tr
      (initState maxC) (by simp [initState])
  · rw [hstep]
  · rw [hstep]
  · rw [hstep]

/-- State with both slots occupied and one frame (id 7) backlogged. -/
def drainState : DispatchState :=
  { initState 2 with
      inFlight := 2, active := [0, 1], queue := [7],
      seen := [0, 1, 7], enqueued := [7], acquires := [0, 1] }

theorem c4_witness :
    (runD (initState 2) traceEx).enqueued
        = (runD (initState 2) traceEx).dequeued ++ (runD (initState 2) traceEx).queue
    ∧ (frameCompletion 0 true drainState).dequeued = drainState.dequeued ++ [7]
    ∧ (frameCompletion 0 true drainState).acquires = drainState.acquires ++ [7]
    ∧ (frameCompletion 0 true drainState).queue = [] :=
  c4_backlog_fifo 2 traceEx drainState 0 true 7 [] rfl (by decide)

/-- C9: a 'frame' submission with no payload or no imageBase64 field is
answered with a targeted prediction event (success:false, error
'No frame provided') and causes no other state change at all: no ack, no
backlog change, no slot-count change — it never reaches admission
control. -/
theorem c9_missing_payload_rejected (s : DispatchState) (conn fid : ℕ)
    (data : Option FrameData)
    (h : data = none ∨ ∃ d, data = some d ∧ d.imageBase64 = none) :
    onFrame conn fid data s =
      { s with emits := s.emits ++ [EmitEv.errTo conn "No frame provided"] } := by
  refine onFrame_of_noPayload conn fid data s ?_
  rcases h with rfl | ⟨d, rfl, hd⟩
  · exact Or.inl rfl
  · obtain ⟨ib⟩ := d
    simp only at hd
    subst hd
    exact Or.inr (Or.inl rfl)

theorem c9_witness :
    onFrame 0 0 none (initState 2) =
      { initState 2 with
          emits := (initState 2).emits ++ [EmitEv.errTo 0 "No frame provided"] } :=
  c9_missing_payload_rejected (initState 2) 0 0 none (Or.inl rfl)

/-- Alert state of server.js: the mutable globals `ALERT_THRESHOLD` and
`lastAlertTime` (`lastAlertTime` is initialized to 0). `ALERT_COOLDOWN`
is a constant (5*60*1000 ms in the source) passed as a parameter so that
the spec scenario can be stated in seconds. -/
structure AlertState where
  threshold : ℤ
  lastAlertTime : ℤ
deriving DecidableEq, Repr

/-- The inline alert check of processFrameAndEmit (server.js lines
166-170): fire exactly when `count >= ALERT_THRESHOLD` and
`Date.now() - lastAlertTime > ALERT_COOLDOWN` (strictly greater); on
fire, `lastAlertTime = Date.now()` and the alert is broadcast. Returns
the updated state and whether the alert fired. -/
def checkAlertThreshold (cooldown count now : ℤ) (st : AlertState) :
    AlertState × Bool :=
  if st.threshold ≤ count ∧ cooldown < now - st.lastAlertTime then
    ({ st with lastAlertTime := now }, true)
  else (st, false)

/-- Evaluate a sequence of (count, time) samples in order, collecting
each sample's fire flag. -/
def runAlerts (cooldown : ℤ) (st : AlertState) : List (ℤ × ℤ) → List Bool
  | [] => []
  | (c, t) :: rest =>
    (checkAlertThreshold cooldown c t st).2 ::
      runAlerts cooldown (checkAlertThreshold cooldown c t st).1 rest

/-- C5 counterexample: with threshold 5, cooldown 300 and the initial
`lastAlertTime = 0` of the source, the claimed scenario (counts
[3,6,7,2,8] at times [0,1,2,150,151]) fires NO alert at all — in
particular not at t=1, where the claim asserts one fires, because only
1 ≤ 300 time units have elapsed since `lastAlertTime = 0`. Moreover the
cooldown comparison is strict: at exactly `now − lastAlertAt =
cooldownDuration` (claimed to have elapsed) no alert fires. -/
theorem c5_counterexample :
    runAlerts 300 ⟨5, 0⟩ [(3, 0), (6, 1), (7, 2), (2, 150), (8, 151)]
        = [false, false, false, false, false]
    ∧ (runAlerts 300 ⟨5, 0⟩ [(3, 0), (6, 1), (7, 2), (2, 150), (8, 151)])[1]?
        = some false
    ∧ (checkAlertThreshold 300 6 301 ⟨5, 1⟩).2 = false := by
  decide

/-- C5 as amended: the evaluator fires exactly when count ≥ threshold
and now − lastAlertAt > cooldownDuration (strictly greater), recording
lastAlertAt = now on fire; hence after an alert at time T no alert can
fire while now ≤ T + cooldown (the first opportunity is T + cooldown + 1);
and with threshold=5, cooldown=300 and the source's initial
lastAlertAt = 0, the scenario [3,6,7,2,8] at [0,1,2,150,151] fires no
alert at all. -/
theorem c5_alert_fire_iff (cd count now : ℤ) (st : AlertState) :
    ((checkAlertThreshold cd count now st).2 = true ↔
        st.threshold ≤ count ∧ cd < now - st.lastAlertTime)
    ∧ (now - st.lastAlertTime ≤ cd → (checkAlertThreshold cd count now st).2 = false)
    ∧ ((checkAlertThreshold cd count now st).2 = true →
        (checkAlertThreshold cd count now st).1 = { st with lastAlertTime := now })
    ∧ runAlerts 300 ⟨5, 0⟩ [(3, 0), (6, 1), (7, 2), (2, 150), (8, 151)]
        = [false, false, false, false, false] := by
  have hiff : (checkAlertThreshold cd count now st).2 = true ↔
      st.threshold ≤ count ∧ cd < now - st.lastAlertTime := by
    unfold checkAlertThreshold
    split
    case isTrue h => simpa using h
    case isFalse h => simpa using h
  refine ⟨hiff, ?_, ?_, by decide⟩
  · intro hc
    rcases Bool.eq_false_or_eq_true (checkAlertThreshold cd count now st).2 with hb | hb
    · exfalso
      have := hiff.mp hb
      omega
    · exact hb
  · unfold checkAlertThreshold
    split
    case isTrue h => intro _; rfl
    case isFalse h => intro hc; simp at hc

theorem c5_witness : (checkAlertThreshold 300 8 151 ⟨5, 1⟩).2 = false :=
  (c5_alert_fire_iff 300 8 151 ⟨5, 1⟩).2.1 (by decide)

/-- One detection returned by the inference service, as consumed by the
renderers: `pred.x` and `pred.y` may be absent (JavaScript undefined) —
the only guard in the source is the coordinate truthiness check
`if (x && y)`, so the remaining numeric fields are modeled as present,
with rationals standing in for JavaScript numbers. -/
structure Detection where
  x : Option ℚ
  y : Option ℚ
  width : ℚ
  height : ℚ
  confidence : ℚ
deriving DecidableEq, Repr

/-- Count emitted on the live-frame path (server.js line 163, and
identically in the testModel handler, line 376):
`output.count_objects || predictions.length` — the JavaScript or takes
the explicit count only when truthy, i.e. present AND nonzero. -/
def liveStreamCount (count_objects : Option ℤ) (predictions : List Detection) : ℤ :=
  match count_objects with
  | some c => if c ≠ 0 then c else predictions.length
  | none => predictions.length

/-- Count returned by the /predict HTTP route (server.js line 82):
`output.count_objects ?? 0` — nullish coalescing: the explicit count
when present (zero included), otherwise 0, never the detections
length. -/
def predictRouteCount (count_objects : Option ℤ) : ℤ :=
  match count_objects with
  | some c => c
  | none => 0

def detEx1 : Detection := ⟨some 10, some 20, 4, 4, 9 / 10⟩

def detEx2 : Detection := ⟨some 30, some 40, 4, 4, 8 / 10⟩

/-- C6 counterexample: a service response with an explicit count of 0
and two detections is reported on the emitted live-frame path with
count = 2 (the detections length), not the explicit 0 the claim
requires: `0 || 2` evaluates to 2 in JavaScript. -/
theorem c6_counterexample :
    liveStreamCount (some 0) [detEx1, detEx2] = 2 ∧ (2 : ℤ) ≠ 0 := by
  decide

/-- C6 as amended: on the live-frame (and testModel) path the reported
count equals the explicit service count only when it is truthy (present
and nonzero); an explicit count of 0 — and an absent count — falls back
to the detections length, so an explicit 0 with a non-empty detections
list is reported as the detections length. On the /predict route the
count is the explicit count when present (0 included) and otherwise 0,
never the detections length. -/
theorem c6_count_precedence (c : ℤ) (preds : List Detection) (hc : c ≠ 0) :
    liveStreamCount none preds = preds.length
    ∧ liveStreamCount (some 0) preds = preds.length
    ∧ liveStreamCount (some c) preds = c
    ∧ predictRouteCount (some c) = c
    ∧ predictRouteCount (some 0) = 0
    ∧ predictRouteCount none = 0 := by
  refine ⟨rfl, by simp [liveStreamCount], by simp [liveStreamCount, hc], rfl, rfl, rfl⟩

theorem c6_witness :
    liveStreamCount none [detEx1] = 1
    ∧ liveStreamCount (some 0) [detEx1] = 1
    ∧ liveStreamCount (some 5) [detEx1] = 5
    ∧ predictRouteCount (some 5) = 5
    ∧ predictRouteCount (some 0) = 0
    ∧ predictRouteCount none = 0 := by
  have h := c6_count_precedence 5 [detEx1] (by decide)
  simpa using h

/-- JavaScript truthiness of a possibly-missing numeric field:
`undefined` and `0` are falsy, all other numbers truthy. -/
def jsTruthy : Option ℚ → Bool
  | none => false
  | some v => decide (v ≠ 0)

/-- Marker drawn by drawDotsOnImage for one prediction: its position,
the raw width and height the radius is computed from, and the rounded
confidence percentage label (`Math.round(pred.confidence * 100)`,
line 236). -/
structure DotCmd where
  x : ℚ
  y : ℚ
  width : ℚ
  height : ℚ
  confLabel : ℤ
deriving DecidableEq, Repr

/-- Marker radius `Math.min(20, Math.max(5, Math.sqrt(width*height)/5))`
(server.js line 227) — the clamp of sqrt(width*height)/5 to [5, 20].
Real.sqrt agrees with Math.sqrt on the nonnegative products occurring in
detections. -/
noncomputable def dotSize (w h : ℚ) : ℝ :=
  min 20 (max 5 (Real.sqrt ((w : ℝ) * (h : ℝ)) / 5))

noncomputable def DotCmd.radius (c : DotCmd) : ℝ :=
  dotSize c.width c.height

/-- Per-prediction body of the forEach in drawDotsOnImage (lines
223-242): the marker and its confidence label are drawn only when both
coordinates are truthy (`if (x && y)`), otherwise this prediction is
skipped and the loop simply continues (the per-iteration try/catch
additionally confines any failure to the one prediction). -/
def drawOne (pred : Detection) : Option DotCmd :=
  match pred.x, pred.y with
  | some x, some y =>
    if x ≠ 0 ∧ y ≠ 0 then
      some ⟨x, y, pred.width, pred.height, round (pred.confidence * 100)⟩
    else none
  | _, _ => none

/-- Observable output of drawDotsOnImage: the 'People: N' banner, which
always shows the raw predictions length (line 219), and the ordered list
of drawn markers. -/
structure OverlayOutput where
  countLabel : ℕ
  dots : List DotCmd
deriving DecidableEq, Repr

def drawDotsOnImage (predictions : List Detection) : OverlayOutput :=
  ⟨predictions.length, predictions.filterMap drawOne⟩

/-- Radial-gradient blob drawn by generateHeatmap for one prediction. -/
structure HeatCmd where
  x : ℚ
  y : ℚ
  radius : ℚ
deriving DecidableEq, Repr

/-- Per-prediction body of the forEach in generateHeatmap (lines
266-283): drawn only `if (pred.x && pred.y)`, with radius
`Math.min(img.width, img.height) * 0.1`. -/
def heatOne (imgW imgH : ℚ) (pred : Detection) : Option HeatCmd :=
  match pred.x, pred.y with
  | some x, some y =>
    if x ≠ 0 ∧ y ≠ 0 then some ⟨x, y, min imgW imgH * (1 / 10)⟩ else none
  | _, _ => none

def generateHeatmap (imgW imgH : ℚ) (predictions : List Detection) : List HeatCmd :=
  predictions.filterMap (heatOne imgW imgH)

theorem drawOne_skip (p : Detection)
    (h : jsTruthy p.x = false ∨ jsTruthy p.y = false) : drawOne p = none := by
  unfold drawOne
  rcases hx : p.x with _ | xv
  · rfl
  · rcases hy : p.y with _ | yv
    · rfl
    · rw [hx, hy] at h
      simp only [jsTruthy, decide_eq_false_iff_not, not_not] at h
      rcases h with rfl | rfl <;> simp

theorem heatOne_skip (imgW imgH : ℚ) (p : Detection)
    (h : jsTruthy p.x = false ∨ jsTruthy p.y = false) :
    heatOne imgW imgH p = none := by
  unfold heatOne
  rcases hx : p.x with _ | xv
  · rfl
  · rcases hy : p.y with _ | yv
    · rfl
    · rw [hx, hy] at h
      simp only [jsTruthy, decide_eq_false_iff_not, not_not] at h
      rcases h with rfl | rfl <;> simp

/-- C7: in the overlay renderer a detection whose x or y is missing or
zero is skipped — removing it from the prediction list leaves the drawn
markers unchanged, so the remaining detections still render; while a
detection with truthy coordinates but width = 0 and height = 0 IS drawn,
with marker radius exactly 5 = min 20 (max 5 (sqrt 0 / 5)), the lower
clamp bound. -/
theorem c7_overlay_skip_and_min_radius (l1 l2 : List Detection) (d e : Detection)
    (x y : ℚ)
    (hskip : jsTruthy d.x = false ∨ jsTruthy d.y = false)
    (hex : e.x = some x) (hxne : x ≠ 0) (hey : e.y = some y) (hyne : y ≠ 0)
    (hw : e.width = 0) (hh : e.height = 0) :
    (drawDotsOnImage (l1 ++ d :: l2)).dots = (drawDotsOnImage (l1 ++ l2)).dots
    ∧ drawOne e = some ⟨x, y, 0, 0, round (e.confidence * 100)⟩
    ∧ DotCmd.radius ⟨x, y, 0, 0, round (e.confidence * 100)⟩ = 5
    ∧ dotSize 0 0 = 5 := by
  have hrad : dotSize 0 0 = (5 : ℝ) := by
    unfold dotSize
    rw [show ((0 : ℚ) : ℝ) * ((0 : ℚ) : ℝ) = 0 by norm_num, Real.sqrt_zero]
    norm_num
  refine ⟨?_, ?_, hrad, hrad⟩
  · simp [drawDotsOnImage, List.filterMap_append, drawOne_skip d hskip]
  · unfold drawOne
    rw [hex, hey]
    simp only
    rw [if_pos ⟨hxne, hyne⟩, hw, hh]

def detSkip : Detection := ⟨some 0, some 3, 1, 1, 1 / 2⟩

def detZeroWH : Detection := ⟨some 3, some 4, 0, 0, 1 / 2⟩

theorem c7_witness :
    (drawDotsOnImage ([detEx1] ++ detSkip :: [detEx2])).dots
        = (drawDotsOnImage ([detEx1] ++ [detEx2])).dots
    ∧ drawOne detZeroWH = some ⟨3, 4, 0, 0, round (detZeroWH.confidence * 100)⟩
    ∧ DotCmd.radius ⟨3, 4, 0, 0, round (detZeroWH.confidence * 100)⟩ = 5
    ∧ dotSize 0 0 = 5 :=
  c7_overlay_skip_and_min_radius [detEx1] [detEx2] detSkip detZeroWH 3 4
    (Or.inl (by decide)) rfl (by decide) rfl (by decide) rfl rfl

/-- C8: in both renderers a malformed detection — one failing the
coordinate guard that protects every later field use — affects only
itself: the markers are those of the other detections alone (the
renderers are total functions, so the render of the remaining detections
and of the whole frame always succeeds). -/
theorem c8_malformed_detection_isolated (imgW imgH : ℚ) (l1 l2 : List Detection)
    (d : Detection) (h : jsTruthy d.x = false ∨ jsTruthy d.y = false) :
    (drawDotsOnImage (l1 ++ d :: l2)).dots
        = (drawDotsOnImage l1).dots ++ (drawDotsOnImage l2).dots
    ∧ (drawDotsOnImage (l1 ++ d :: l2)).dots = (drawDotsOnImage (l1 ++ l2)).dots
    ∧ generateHeatmap imgW imgH (l1 ++ d :: l2) = generateHeatmap imgW imgH (l1 ++ l2) := by
  have hd := drawOne_skip d h
  have hh := heatOne_skip imgW imgH d h
  refine ⟨?_, ?_, ?_⟩ <;>
    simp [drawDotsOnImage, generateHeatmap, List.filterMap_append, hd, hh]

theorem c8_witness :
    (drawDotsOnImage ([detEx1] ++ (⟨none, some 3, 1, 1, 1 / 2⟩ : Detection) :: [detEx2])).dots
        = (drawDotsOnImage [detEx1]).dots ++ (drawDotsOnImage [detEx2]).dots
    ∧ (drawDotsOnImage ([detEx1] ++ (⟨none, some 3, 1, 1, 1 / 2⟩ : Detection) :: [detEx2])).dots
        = (drawDotsOnImage ([detEx1] ++ [detEx2])).dots
    ∧ generateHeatmap 100 80 ([detEx1] ++ (⟨none, some 3, 1, 1, 1 / 2⟩ : Detection) :: [detEx2])
        = generateHeatmap 100 80 ([detEx1] ++ [detEx2]) :=
  c8_malformed_detection_isolated 100 80 [detEx1] [detEx2]
    ⟨none, some 3, 1, 1, 1 / 2⟩ (Or.inl (by decide))

/-- Model of the JavaScript values a client can place in a JSON event
field: a number or a string. -/
inductive JSVal where
  | num (n : ℤ)
  | str (s : String)
deriving DecidableEq, Repr

/-- JavaScript truthiness: the number 0 and the empty string are falsy;
every other number or string is truthy (in particular the string "0"). -/
def jsTruthyVal : JSVal → Bool
  | JSVal.num n => decide (n ≠ 0)
  | JSVal.str s => decide (s ≠ "")

def digitsVal (cs : List Char) : ℤ :=
  cs.foldl (fun acc c => acc * 10 + ((c.toNat : ℤ) - 48)) 0

/-- JavaScript `parseInt` in base 10: an integer number round-trips
through its decimal string; for a string, leading spaces then an
optional sign then the leading run of decimal digits are read, and a
digit-free string yields NaN (`none`). -/
def jsParseInt : JSVal → Option ℤ
  | JSVal.num n => some n
  | JSVal.str s =>
    match s.toList.dropWhile (fun c => c = ' ') with
    | '-' :: t =>
      if (t.takeWhile Char.isDigit).isEmpty then none
      else some (-(digitsVal (t.takeWhile Char.isDigit)))
    | '+' :: t =>
      if (t.takeWhile Char.isDigit).isEmpty then none
      else some (digitsVal (t.takeWhile Char.isDigit))
    | t =>
      if (t.takeWhile Char.isDigit).isEmpty then none
      else some (digitsVal (t.takeWhile Char.isDigit))

/-- Payload of an 'updateThreshold' socket event. -/
structure UpdateData where
  threshold : Option JSVal
deriving DecidableEq, Repr

inductive ThresholdEmit where
  | thresholdUpdated (threshold : Option ℤ)
deriving DecidableEq, Repr

/-- The 'updateThreshold' handler (server.js lines 431-437):
`if (data && data.threshold) { ALERT_THRESHOLD = parseInt(data.threshold);
io.emit('thresholdUpdated', {threshold: ALERT_THRESHOLD}); }`. The
current threshold is an `Option ℤ` because `parseInt` of a digit-free
string stores NaN. Returns the new threshold and the broadcasts
issued. -/
def onUpdateThreshold (data : Option UpdateData) (current : Option ℤ) :
    Option ℤ × List ThresholdEmit :=
  match data with
  | none => (current, [])
  | some d =>
    match d.threshold with
    | none => (current, [])
    | some v =>
      if jsTruthyVal v then
        (jsParseInt v, [ThresholdEmit.thresholdUpdated (jsParseInt v)])
      else (current, [])

/-- C10 counterexample: the threshold CAN be hot-reconfigured to 0
through this interface — the string "0" is truthy in JavaScript, passes
the `data.threshold` guard, and `parseInt("0")` stores 0 (and broadcasts
it), changing the threshold from 15 to 0. -/
theorem c10_counterexample :
    onUpdateThreshold (some ⟨some (JSVal.str "0")⟩) (some 15)
        = (some 0, [ThresholdEmit.thresholdUpdated (some 0)])
    ∧ some (0 : ℤ) ≠ some (15 : ℤ) := by
  decide

/-- C10 as amended: an 'updateThreshold' event whose threshold field is
missing or falsy (the number 0, the empty string) leaves the threshold
unchanged and broadcasts nothing; an event with a truthy threshold field
sets the threshold to its parseInt value and broadcasts thresholdUpdated.
The NUMBER 0 is falsy and therefore cannot be set this way, but a truthy
string such as "0" parses to 0, so the threshold can still be
hot-reconfigured to 0 through this interface. -/
theorem c10_threshold_update (current : Option ℤ) (v : JSVal)
    (hv : jsTruthyVal v = true) :
    onUpdateThreshold none current = (current, [])
    ∧ onUpdateThreshold (some ⟨none⟩) current = (current, [])
    ∧ onUpdateThreshold (some ⟨some (JSVal.num 0)⟩) current = (current, [])
    ∧ onUpdateThreshold (some ⟨some (JSVal.str "")⟩) current = (current, [])
    ∧ onUpdateThreshold (some ⟨some v⟩) current
        = (jsParseInt v, [ThresholdEmit.thresholdUpdated (jsParseInt v)])
    ∧ onUpdateThreshold (some ⟨some (JSVal.str "0")⟩) current
        = (some 0, [ThresholdEmit.thresholdUpdated (some 0)]) := by
  refine ⟨rfl, rfl, rfl, rfl, ?_, rfl⟩
  simp [onUpdateThreshold, hv]

theorem c10_witness :
    onUpdateThreshold none (some 15) = (some 15, [])
    ∧ onUpdateThreshold (some ⟨none⟩) (some 15) = (some 15, [])
    ∧ onUpdateThreshold (some ⟨some (JSVal.num 0)⟩) (some 15) = (some 15, [])
    ∧ onUpdateThreshold (some ⟨some (JSVal.str "")⟩) (some 15) = (some 15, [])
    ∧ onUpdateThreshold (some ⟨some (JSVal.num 25)⟩) (some 15)
        = (jsParseInt (JSVal.num 25), [ThresholdEmit.thresholdUpdated (jsParseInt (JSVal.num 25))])
    ∧ onUpdateThreshold (some ⟨some (JSVal.str "0")⟩) (some 15)
        = (some 0, [ThresholdEmit.thresholdUpdated (some 0)]) :=
  c10_threshold_update (some 15) (JSVal.num 25) (by decide)

end CrowdServer
